import Mathlib

/-!
Verification of the OffDay leave-calendar availability logic.

The source is a React client; the logic under verification lives in the
user dashboard calendar (`CalendarView` / `UserDashboard`) and in
`src/utils/date.ts`.  Dates are modelled at day granularity:

* an epoch day is an `Int`, the number of UTC days since 1970-01-01
  (JS `Date` values in this code always sit at a UTC midnight, so the
  millisecond timestamp is day-granular);
* a `YYYY-MM-DD` date string is modelled by its components `DateStr`;
  the rendering of such a string from components is fixed-width and
  injective, so string equality coincides with component equality.

`civilFromDays` and `daysFromCivil` model the proleptic Gregorian UTC
calendar of ECMAScript `Date` (`toISOString`, `getUTC*`, `Date.UTC`).
`daysFromCivil` uses the standard era/year-of-era/day-of-year formulas;
`civilFromDays` recovers the year of era by an estimate-and-correct step
whose correctness is proved below (`doe_roundtrip`), and the proved
round-trip `daysFromCivil_civilFromDays` pins the pair down as the
Gregorian bijection.
-/

/-- A `YYYY-MM-DD` date string, represented by its numeric components. -/
structure DateStr where
  year : Int
  month : Nat
  day : Nat
deriving DecidableEq

/-- Day of era (era = 400 Gregorian years, starting March 1) on which
year-of-era `y` begins: 365 days per year plus the leap days of the
complete years before it. -/
def yearStart (y : Nat) : Nat := 365 * y + y / 4 - y / 100 + y / 400

/-- Year of era (0..399) containing day-of-era `doe`: first-order estimate
`400 * doe / 146097`, corrected by comparing against the starts of the
estimated year and of the next one. -/
def yoeOf (doe : Nat) : Nat :=
  if doe < yearStart (400 * doe / 146097) then 400 * doe / 146097 - 1
  else if doe < yearStart (400 * doe / 146097 + 1) then 400 * doe / 146097
  else 400 * doe / 146097 + 1

/-- Shifted month index of a day-of-year (March = 0 .. February = 11). -/
def mpOf (doy : Nat) : Nat := (5 * doy + 2) / 153

/-- Calendar month (1..12) of a day-of-year in the March-based year. -/
def mOf (doy : Nat) : Nat := if mpOf doy < 10 then mpOf doy + 3 else mpOf doy - 9

/-- Day of month (1..31) of a day-of-year in the March-based year. -/
def dOf (doy : Nat) : Nat := doy - (153 * mpOf doy + 2) / 5 + 1

/-- Civil components within an era: day-of-era to
(year-of-era, month, day-of-month), months numbered 1..12. -/
def civilFromDoe (doe : Nat) : Nat × Nat × Nat :=
  (yoeOf doe, mOf (doe - yearStart (yoeOf doe)), dOf (doe - yearStart (yoeOf doe)))

/-- Day of era from (year-of-era, month 1..12, day-of-month). -/
def doeFromCivil (yoe m d : Nat) : Nat :=
  365 * yoe + yoe / 4 - yoe / 100 + ((153 * (if 2 < m then m - 3 else m + 9) + 2) / 5 + d - 1)

/-- Epoch day to calendar date; models the date part of
`Date.prototype.toISOString` (and the `getUTCFullYear/Month/Date`
accessors) of a UTC-midnight `Date`. -/
def civilFromDays (z : Int) : DateStr :=
  let era := (z + 719468) / 146097
  let c := civilFromDoe ((z + 719468) % 146097).toNat
  ⟨era * 400 + c.1 + (if c.2.1 ≤ 2 then 1 else 0), c.2.1, c.2.2⟩

/-- Calendar date to epoch day; models `Date.UTC(year, month - 1, day)`
at day granularity for a valid calendar date. -/
def daysFromCivil (c : DateStr) : Int :=
  let y : Int := c.year - (if c.month ≤ 2 then 1 else 0)
  y / 400 * 146097 + (doeFromCivil (y % 400).toNat c.month c.day : Int) - 719468

/-- Models `Date.UTC(year, month - 1, day)` for an arbitrary (possibly
nonpositive or overflowing) day argument, which ECMAScript normalises by
counting from the first of the month; used for `setUTCDate`. -/
def mkDateUTC (year : Int) (month : Nat) (day : Int) : Int :=
  daysFromCivil ⟨year, month, 1⟩ + (day - 1)

/-- Models `Date.prototype.getUTCDay` (0 = Sunday .. 6 = Saturday);
epoch day 0 (1970-01-01) was a Thursday. -/
def getUTCDay (z : Int) : Int := (z + 4) % 7

/-!
Embedding of the leave-calendar source (`CalendarView` / `UserDashboard`
and `src/utils/date.ts`).
-/

/-- Leave status enum from `types.ts`. -/
inductive LeaveStatus where
  | PENDING
  | APPROVED
  | REJECTED
deriving DecidableEq

/-- `WeekRange = '1_WEEK' | '2_WEEKS' | '1_MONTH'` from `types.ts`. -/
inductive WeekRange where
  | oneWeek
  | twoWeeks
  | oneMonth
deriving DecidableEq

/-- Shift record from `types.ts` (optional display times omitted). -/
structure Shift where
  id : String
  name : String
  slots : Int
deriving DecidableEq

/-- Config record from `types.ts`; `disabledDays` holds weekday indices
(0 = Sunday .. 6 = Saturday). -/
structure Config where
  disabledDays : List Int
  weekRange : WeekRange
  shifts : List Shift
deriving DecidableEq

/-- Leave record from `types.ts`; presentation-only fields
(`userName`, `userMobile`, `creatorId`, `shiftName`, `reason`,
`createdAt`) play no part in the verified logic and are omitted. -/
structure Leave where
  id : String
  userId : String
  date : DateStr
  shiftId : String
  status : LeaveStatus
deriving DecidableEq

/-- Per-date entry of the range slot snapshot
`{ [date: string]: { availableSlots, totalSlots } }`. -/
structure SlotCell where
  availableSlots : Int
  totalSlots : Int
deriving DecidableEq

/-- Single-date slot detail entry (`LeaveSlotInfo` in `types.ts`). -/
structure LeaveSlotInfo where
  date : DateStr
  shiftId : String
  totalSlots : Int
  filledSlots : Int
  availableSlots : Int
deriving DecidableEq

/-- Models `const [year, month, day] = s.split('-').map(Number);
new Date(Date.UTC(year, month - 1, day))` applied to a leave's
`YYYY-MM-DD` date string. -/
def parseISODate (c : DateStr) : Int := daysFromCivil c

/-- The source's activity test
`leave.status === LeaveStatus.PENDING || leave.status === LeaveStatus.APPROVED`. -/
def isActive (l : Leave) : Prop :=
  l.status = LeaveStatus.PENDING ∨ l.status = LeaveStatus.APPROVED

instance (l : Leave) : Decidable (isActive l) := by
  unfold isActive
  infer_instance

/-- `CalendarView.getStartOfWeekUTC` (part_002, lines 96-107): Monday-start
week key of a date, computed from the UTC weekday and `setUTCDate`
normalisation, returned as a `YYYY-MM-DD` string. -/
def getStartOfWeekUTC (z : Int) : DateStr :=
  let day := getUTCDay z
  let mondayIndex := (day + 6) % 7
  let c := civilFromDays z
  civilFromDays (mkDateUTC c.year c.month ((c.day : Int) - mondayIndex))

/-- `CalendarView.bookedWeeks` (part_002, lines 110-120): the set of
Monday-start week keys of the user's `PENDING`/`APPROVED` leaves.  The JS
`Set<string>` is modelled as a duplicate-free list in insertion order. -/
def bookedWeeks (myLeaves : List Leave) : List DateStr :=
  myLeaves.foldl
    (fun weekSet leave =>
      if isActive leave then
        if getStartOfWeekUTC (parseISODate leave.date) ∈ weekSet then weekSet
        else weekSet ++ [getStartOfWeekUTC (parseISODate leave.date)]
      else weekSet)
    []

/-- `CalendarView.leavesByDate` (part_002, lines 122-126): the per-date
leave index built with `Map.set` over the list in order, so a later leave
with the same date overwrites an earlier one; modelled as the lookup the
finished map gives for a fixed key. -/
def leavesByDate (myLeaves : List Leave) (d : DateStr) : Option Leave :=
  myLeaves.foldl (fun acc leave => if leave.date = d then some leave else acc) none

/-- The booking window of `CalendarView.renderCalendar` (part_002, lines
199-218): `minDate` is `today` plus 4 days (`setDate(getDate() + 4)` on a
UTC-midnight date shifts the timestamp by exactly 4 days at any fixed UTC
offset), and `maxDate` is computed from today's UTC weekday through
`setUTCDate` according to `config.weekRange`. -/
def resolveWindow (today : Int) (weekRange : WeekRange) : Int × Int :=
  let minDate := today + 4
  let dayOfWeek := getUTCDay today
  let c := civilFromDays today
  let maxDate :=
    match weekRange with
    | WeekRange.oneWeek => mkDateUTC c.year c.month ((c.day : Int) + (6 - dayOfWeek))
    | WeekRange.twoWeeks => mkDateUTC c.year c.month ((c.day : Int) + (6 - dayOfWeek) + 7)
    | WeekRange.oneMonth => mkDateUTC c.year c.month ((c.day : Int) + 30)
  (minDate, maxDate)

/-- The per-day flags computed inside `CalendarView.renderCalendar`
(part_002, lines 226-240).  In the spec's vocabulary (§3) the reason
codes correspond as: `isPast` = PAST, `isFutureDisabled` = TOO_FAR,
`isDayDisabledByConfig` = DAY_DISABLED, `noSlots` = NO_CAPACITY,
`isWeekBooked` = WEEK_ALREADY_BOOKED, `hasActiveLeave` = HAS_ACTIVE_LEAVE. -/
structure DayEligibility where
  isPast : Bool
  isFutureDisabled : Bool
  isDayDisabledByConfig : Bool
  noSlots : Bool
  isWeekBooked : Bool
  hasActiveLeave : Bool
  isDisabled : Bool
deriving DecidableEq

/-- Day classification of `CalendarView.renderCalendar` (part_002, lines
226-240) for the cell holding epoch day `z`: each field is the source's
boolean of the same role, and `isDisabled` is their disjunction in source
order. -/
def classify (config : Config) (today : Int) (myLeaves : List Leave)
    (slotInfo : DateStr → Option SlotCell) (z : Int) : DayEligibility :=
  let minDate := (resolveWindow today config.weekRange).1
  let maxDate := (resolveWindow today config.weekRange).2
  let dateString := civilFromDays z
  let isPast := decide (z < minDate)
  let isFutureDisabled := decide (maxDate < z)
  let isDayDisabledByConfig := decide (getUTCDay z ∈ config.disabledDays)
  let leaveOnDate := leavesByDate myLeaves dateString
  let isWeekBooked := decide (getStartOfWeekUTC z ∈ bookedWeeks myLeaves)
      && (match leaveOnDate with
          | none => true
          | some l => decide (l.status ≠ LeaveStatus.APPROVED ∧ l.status ≠ LeaveStatus.PENDING))
  let daySlotInfo := slotInfo dateString
  let hasSlots := match daySlotInfo with
    | some info => decide (0 < info.availableSlots)
    | none => false
  let noSlots := daySlotInfo.isSome && !hasSlots
  let hasActiveLeave := match leaveOnDate with
    | none => false
    | some l => decide (l.status ≠ LeaveStatus.REJECTED)
  { isPast := isPast
    isFutureDisabled := isFutureDisabled
    isDayDisabledByConfig := isDayDisabledByConfig
    noSlots := noSlots
    isWeekBooked := isWeekBooked
    hasActiveLeave := hasActiveLeave
    isDisabled := isPast || isFutureDisabled || isDayDisabledByConfig || noSlots
      || isWeekBooked || hasActiveLeave }

/-- Outcome of the submission handler. -/
inductive SubmitResult where
  | rejected (message : String)
  | submitted
deriving DecidableEq

/-- `UserDashboard.handleApplyLeave` (part_002, lines 386-411): the
client-side admission check run on form submission.  Empty strings model
the unset `selectedDate` / `selectedShift` state (JS falsiness);
`slotInfoForDate` is `none` while the single-date detail has not loaded
(`slotInfoForDate?.find(...)` short-circuits to `undefined`). -/
def handleApplyLeave (selectedDate selectedShift : String)
    (slotInfoForDate : Option (List LeaveSlotInfo)) : SubmitResult :=
  if selectedDate = "" ∨ selectedShift = "" then
    SubmitResult.rejected "Please select a date and a shift."
  else
    match slotInfoForDate.bind
        (fun infos => infos.find? (fun s => decide (s.shiftId = selectedShift))) with
    | none => SubmitResult.rejected "No available slots for the selected shift."
    | some shiftSlots =>
        if shiftSlots.availableSlots ≤ 0 then
          SubmitResult.rejected "No available slots for the selected shift."
        else
          SubmitResult.submitted

/-- Which branch `formatDate` (`src/utils/date.ts`, lines 2-20) takes on a
given input: the empty-string early return, the strict `YYYY-MM-DD` branch
that parses with `Date.UTC`, or the fallback `new Date(dateString)`
implicit parse. -/
inductive DateParseBranch where
  | emptyInput
  | strictUTC
  | implicitParse
deriving DecidableEq

/-- The strict format test `/^\d{4}-\d{2}-\d{2}$/.test(dateString)`. -/
def matchesISOFormat (s : String) : Bool :=
  match s.data with
  | [y1, y2, y3, y4, h1, m1, m2, h2, d1, d2] =>
      y1.isDigit && y2.isDigit && y3.isDigit && y4.isDigit && (h1 == '-')
        && m1.isDigit && m2.isDigit && (h2 == '-') && d1.isDigit && d2.isDigit
  | _ => false

/-- The branch structure of `formatDate`: empty input returns `''`;
a string matching the strict regex is parsed with explicit
`Date.UTC` anchoring; any other string falls through to the implicit
`new Date(dateString)` parse. -/
def formatDateBranch (dateString : String) : DateParseBranch :=
  if dateString = "" then DateParseBranch.emptyInput
  else if matchesISOFormat dateString then DateParseBranch.strictUTC
  else DateParseBranch.implicitParse

/-!
Specification-side vocabulary used to state the claims.
-/

/-- The Monday (epoch day) of the Monday-start week containing `z`. -/
def weekStart (z : Int) : Int := z - (z + 3) % 7

/-- `z` lies in the Monday-start week beginning on day `w`. -/
def inMondayWeek (w z : Int) : Prop := getUTCDay w = 1 ∧ w ≤ z ∧ z < w + 7

instance (w z : Int) : Decidable (inMondayWeek w z) := by
  unfold inMondayWeek
  infer_instance

/-- The claim's reading of "the chosen shift's date-specific
availableSlots": the entry found for the shift in the single-date detail,
a missing entry counting as 0 available (the UI likewise renders
`info?.availableSlots ?? 0`). -/
def chosenShiftAvailableSlots (selectedShift : String)
    (slotInfoForDate : Option (List LeaveSlotInfo)) : Int :=
  match slotInfoForDate.bind
      (fun infos => infos.find? (fun s => decide (s.shiftId = selectedShift))) with
  | none => 0
  | some s => s.availableSlots

/-- Test fixture: a leave of user `"u"` on shift `"s"` with the given id,
date and status. -/
def mkLeave (i : String) (dt : DateStr) (st : LeaveStatus) : Leave :=
  { id := i, userId := "u", date := dt, shiftId := "s", status := st }

/-!
Theorems: the Gregorian round-trip, week theory, data-structure
lemmas, and the claim theorems.
-/

-- Table lemmas for the estimate-and-correct year recovery.

set_option maxRecDepth 4000 in
/-- The start of year `y` lies no later than the era fraction at `y+1`. -/
theorem yearStart_le : ∀ y : Nat, y ≤ 399 → 400 * yearStart y ≤ 146097 * (y + 1) := by decide

set_option maxRecDepth 4000 in
/-- The era fraction at `y+1` lies before the start of year `y+2`. -/
theorem yearStart_ge : ∀ y : Nat, y ≤ 398 → 146097 * (y + 1) ≤ 400 * yearStart (y + 2) := by decide

set_option maxRecDepth 4000 in
/-- No Gregorian year is longer than 366 days. -/
theorem yearStart_succ_le : ∀ y : Nat, y ≤ 399 → yearStart (y + 1) ≤ yearStart y + 366 := by decide

set_option maxRecDepth 4000 in
/-- Day-of-year to (month, day) table: the conversion round-trips and
produces components in range, for both 365- and 366-day years. -/
theorem monthTable : ∀ doy : Nat, doy ≤ 365 →
    ((153 * (if 2 < mOf doy then mOf doy - 3 else mOf doy + 9) + 2) / 5 + dOf doy - 1 = doy)
    ∧ 1 ≤ mOf doy ∧ mOf doy ≤ 12 ∧ 1 ≤ dOf doy ∧ dOf doy ≤ 31 := by decide

/-- The corrected year estimate is the true year of era: `doe` falls
between the start of year `yoeOf doe` and the start of the next year. -/
theorem yoeOf_correct : ∀ doe : Nat, doe < 146097 →
    yearStart (yoeOf doe) ≤ doe ∧ doe < yearStart (yoeOf doe + 1) ∧ yoeOf doe ≤ 399 := by
  intro doe h
  have hdm := Nat.div_add_mod (400 * doe) 146097
  have hmlt : (400 * doe) % 146097 < 146097 := Nat.mod_lt _ (by omega)
  have hgle : 400 * doe / 146097 ≤ 399 := by omega
  have hys0 : yearStart 0 = 0 := rfl
  unfold yoeOf
  by_cases hc0 : doe < yearStart (400 * doe / 146097)
  · rw [if_pos hc0]
    have hg1 : 1 ≤ 400 * doe / 146097 := by
      rcases Nat.eq_zero_or_pos (400 * doe / 146097) with h0 | h1
      · rw [h0] at hc0
        omega
      · exact h1
    have t1 := yearStart_le (400 * doe / 146097 - 1) (by omega)
    have hb : 400 * doe / 146097 - 1 + 1 = 400 * doe / 146097 := by omega
    rw [hb] at t1
    refine ⟨by omega, ?_, by omega⟩
    rw [hb]
    exact hc0
  · rw [if_neg hc0]
    have hge0 := Nat.not_lt.mp hc0
    by_cases hc : doe < yearStart (400 * doe / 146097 + 1)
    · rw [if_pos hc]
      exact ⟨hge0, hc, hgle⟩
    · rw [if_neg hc]
      have hge := Nat.not_lt.mp hc
      have hg398 : 400 * doe / 146097 ≤ 398 := by
        rcases Nat.lt_or_ge (400 * doe / 146097) 399 with hlt' | hge'
        · omega
        · exfalso
          have hg399 : 400 * doe / 146097 = 399 := by omega
          rw [hg399] at hge
          have h400 : yearStart (399 + 1) = 146097 := by norm_num [yearStart]
          omega
      have t2 := yearStart_ge (400 * doe / 146097) hg398
      have hb : yearStart (400 * doe / 146097 + 1 + 1) = yearStart (400 * doe / 146097 + 2) := by
        rw [show 400 * doe / 146097 + 1 + 1 = 400 * doe / 146097 + 2 from by omega]
      exact ⟨hge, by omega, by omega⟩

/-- Day-of-era round-trip: converting `doe < 146097` to civil components
and back is the identity, and the components are in range. -/
theorem doe_roundtrip : ∀ doe : Nat, doe < 146097 →
    doeFromCivil (civilFromDoe doe).1 (civilFromDoe doe).2.1 (civilFromDoe doe).2.2 = doe
    ∧ (civilFromDoe doe).1 ≤ 399
    ∧ 1 ≤ (civilFromDoe doe).2.1 ∧ (civilFromDoe doe).2.1 ≤ 12
    ∧ 1 ≤ (civilFromDoe doe).2.2 ∧ (civilFromDoe doe).2.2 ≤ 31 := by
  intro doe h
  obtain ⟨hy1, hy2, hy3⟩ := yoeOf_correct doe h
  have hdoy : doe - yearStart (yoeOf doe) ≤ 365 := by
    have := yearStart_succ_le (yoeOf doe) hy3
    omega
  obtain ⟨ht1, ht2, ht3, ht4, ht5⟩ := monthTable (doe - yearStart (yoeOf doe)) hdoy
  have hys : yearStart (yoeOf doe) = 365 * yoeOf doe + yoeOf doe / 4 - yoeOf doe / 100
      + yoeOf doe / 400 := rfl
  dsimp only [civilFromDoe, doeFromCivil]
  refine ⟨?_, hy3, ht2, ht3, ht4, ht5⟩
  omega

/-- Round-trip between epoch days and calendar dates: `daysFromCivil`
inverts `civilFromDays` on every epoch day. -/
theorem daysFromCivil_civilFromDays (z : Int) : daysFromCivil (civilFromDays z) = z := by
  have hdm := Int.ediv_add_emod (z + 719468) 146097
  have hnn : 0 ≤ (z + 719468) % 146097 := Int.emod_nonneg _ (by norm_num)
  have hlt : (z + 719468) % 146097 < 146097 := Int.emod_lt_of_pos _ (by norm_num)
  have hdoelt : ((z + 719468) % 146097).toNat < 146097 := by omega
  obtain ⟨hrt, hyoe, hm1, hm2, hd1, hd2⟩ := doe_roundtrip _ hdoelt
  rcases hE : civilFromDoe ((z + 719468) % 146097).toNat with ⟨yoe, m, d⟩
  rw [hE] at hrt hyoe hm1 hm2 hd1 hd2
  dsimp only at hrt hyoe hm1 hm2 hd1 hd2
  dsimp only [daysFromCivil, civilFromDays]
  rw [hE]
  dsimp only
  rw [add_sub_cancel_right]
  have hdiv : ((z + 719468) / 146097 * 400 + (yoe : Int)) / 400 = (z + 719468) / 146097 := by
    omega
  have hmod : (((z + 719468) / 146097 * 400 + (yoe : Int)) % 400).toNat = yoe := by omega
  rw [hdiv, hmod, hrt]
  omega

/-- Injectivity of the date rendering: distinct epoch days have distinct
`YYYY-MM-DD` strings. -/
theorem civilFromDays_injective {z1 z2 : Int} (h : civilFromDays z1 = civilFromDays z2) :
    z1 = z2 := by
  have h1 := daysFromCivil_civilFromDays z1
  rw [h, daysFromCivil_civilFromDays] at h1
  exact h1.symm

/-- The components produced by `civilFromDays` are a valid calendar date. -/
theorem civilFromDays_bounds (z : Int) :
    1 ≤ (civilFromDays z).month ∧ (civilFromDays z).month ≤ 12
    ∧ 1 ≤ (civilFromDays z).day ∧ (civilFromDays z).day ≤ 31 := by
  have hnn : 0 ≤ (z + 719468) % 146097 := Int.emod_nonneg _ (by norm_num)
  have hlt : (z + 719468) % 146097 < 146097 := Int.emod_lt_of_pos _ (by norm_num)
  have hdoelt : ((z + 719468) % 146097).toNat < 146097 := by omega
  obtain ⟨_, _, hm1, hm2, hd1, hd2⟩ := doe_roundtrip _ hdoelt
  dsimp only [civilFromDays]
  exact ⟨hm1, hm2, hd1, hd2⟩

/-- `daysFromCivil` is linear in the day component. -/
theorem daysFromCivil_day (y : Int) (m dd : Nat) (h : 1 ≤ dd) :
    daysFromCivil ⟨y, m, dd⟩ = daysFromCivil ⟨y, m, 1⟩ + ((dd : Int) - 1) := by
  dsimp only [daysFromCivil, doeFromCivil]
  omega

/-- `Date.UTC` normalisation of an out-of-range day argument, applied to the
civil components of `z`, lands `k` days away from `z` when the day argument
is the day of `z` plus `k`. -/
theorem mkDateUTC_self_add (z k : Int) :
    mkDateUTC (civilFromDays z).year (civilFromDays z).month
      (((civilFromDays z).day : Int) + k) = z + k := by
  obtain ⟨_, _, hd1, _⟩ := civilFromDays_bounds z
  have hlin := daysFromCivil_day (civilFromDays z).year (civilFromDays z).month
    (civilFromDays z).day hd1
  have hrt : daysFromCivil ⟨(civilFromDays z).year, (civilFromDays z).month,
      (civilFromDays z).day⟩ = z := daysFromCivil_civilFromDays z
  unfold mkDateUTC
  omega

/-!
Supporting lemmas about the week key, the booked-week set and the
per-date leave index.
-/

/-- The source's `getStartOfWeekUTC` renders the epoch day `weekStart z`:
the month-boundary `setUTCDate` normalisation collapses to subtracting
the Monday-based weekday index. -/
theorem getStartOfWeekUTC_eq (z : Int) :
    getStartOfWeekUTC z = civilFromDays (weekStart z) := by
  show civilFromDays (mkDateUTC (civilFromDays z).year (civilFromDays z).month
      (((civilFromDays z).day : Int) - (getUTCDay z + 6) % 7)) = civilFromDays (weekStart z)
  rw [sub_eq_add_neg, mkDateUTC_self_add z (-((getUTCDay z + 6) % 7))]
  congr 1
  unfold weekStart getUTCDay
  omega

/-- `weekStart z` is the Monday of a Monday-start week containing `z`. -/
theorem inMondayWeek_weekStart (z : Int) : inMondayWeek (weekStart z) z := by
  unfold inMondayWeek weekStart getUTCDay
  omega

/-- A Monday-start week containing `z` must begin on `weekStart z`. -/
theorem inMondayWeek_unique {w z : Int} (h : inMondayWeek w z) : w = weekStart z := by
  unfold inMondayWeek getUTCDay at h
  unfold weekStart
  omega

/-- Two dates get the same week key exactly when their Mondays agree. -/
theorem getStartOfWeekUTC_eq_iff (z z' : Int) :
    getStartOfWeekUTC z = getStartOfWeekUTC z' ↔ weekStart z = weekStart z' := by
  rw [getStartOfWeekUTC_eq, getStartOfWeekUTC_eq]
  exact ⟨fun h => civilFromDays_injective h, fun h => by rw [h]⟩

/-- Membership in the booked-week set: a week key is present iff some
`PENDING`/`APPROVED` leave in the list has that week key. -/
theorem mem_bookedWeeks_iff (L : List Leave) (w : DateStr) :
    w ∈ bookedWeeks L
    ↔ ∃ l, l ∈ L ∧ isActive l ∧ getStartOfWeekUTC (parseISODate l.date) = w := by
  suffices h : ∀ (M : List Leave) (acc : List DateStr),
      w ∈ M.foldl (fun weekSet leave =>
          if isActive leave then
            if getStartOfWeekUTC (parseISODate leave.date) ∈ weekSet then weekSet
            else weekSet ++ [getStartOfWeekUTC (parseISODate leave.date)]
          else weekSet) acc
      ↔ w ∈ acc ∨ ∃ l, l ∈ M ∧ isActive l ∧ getStartOfWeekUTC (parseISODate l.date) = w by
    simpa [bookedWeeks] using h L []
  intro M
  induction M with
  | nil => intro acc; simp
  | cons a M ih =>
    intro acc
    rw [List.foldl_cons, ih]
    by_cases ha : isActive a
    · by_cases hk : getStartOfWeekUTC (parseISODate a.date) ∈ acc
      · rw [if_pos ha, if_pos hk]
        constructor
        · rintro (hw | ⟨l, hl, hact, hkey⟩)
          · exact Or.inl hw
          · exact Or.inr ⟨l, List.mem_cons_of_mem _ hl, hact, hkey⟩
        · rintro (hw | ⟨l, hl, hact, hkey⟩)
          · exact Or.inl hw
          · rcases List.mem_cons.mp hl with rfl | hl'
            · exact Or.inl (hkey ▸ hk)
            · exact Or.inr ⟨l, hl', hact, hkey⟩
      · rw [if_pos ha, if_neg hk]
        simp only [List.mem_append, List.mem_singleton]
        constructor
        · rintro ((hw | hw) | ⟨l, hl, hact, hkey⟩)
          · exact Or.inl hw
          · exact Or.inr ⟨a, List.mem_cons_self a M, ha, hw.symm⟩
          · exact Or.inr ⟨l, List.mem_cons_of_mem _ hl, hact, hkey⟩
        · rintro (hw | ⟨l, hl, hact, hkey⟩)
          · exact Or.inl (Or.inl hw)
          · rcases List.mem_cons.mp hl with rfl | hl'
            · exact Or.inl (Or.inr hkey.symm)
            · exact Or.inr ⟨l, hl', hact, hkey⟩
    · rw [if_neg ha]
      constructor
      · rintro (hw | ⟨l, hl, hact, hkey⟩)
        · exact Or.inl hw
        · exact Or.inr ⟨l, List.mem_cons_of_mem _ hl, hact, hkey⟩
      · rintro (hw | ⟨l, hl, hact, hkey⟩)
        · exact Or.inl hw
        · rcases List.mem_cons.mp hl with rfl | hl'
          · exact absurd hact ha
          · exact Or.inr ⟨l, hl', hact, hkey⟩

/-- A hit in the per-date index is a leave of the list with that date. -/
theorem leavesByDate_eq_some {L : List Leave} {d : DateStr} {l : Leave}
    (h : leavesByDate L d = some l) : l ∈ L ∧ l.date = d := by
  suffices haux : ∀ (M : List Leave) (acc : Option Leave),
      M.foldl (fun acc leave => if leave.date = d then some leave else acc) acc = some l
      → acc = some l ∨ (l ∈ M ∧ l.date = d) by
    rcases haux L none h with hacc | hmem
    · exact absurd hacc (by simp)
    · exact hmem
  intro M
  induction M with
  | nil => intro acc hacc; exact Or.inl hacc
  | cons a M ih =>
    intro acc hacc
    rw [List.foldl_cons] at hacc
    rcases ih _ hacc with hstep | hmem
    · by_cases hd : a.date = d
      · rw [if_pos hd] at hstep
        obtain rfl : a = l := by injection hstep
        exact Or.inr ⟨List.mem_cons_self a M, hd⟩
      · rw [if_neg hd] at hstep
        exact Or.inl hstep
    · exact Or.inr ⟨List.mem_cons_of_mem _ hmem.1, hmem.2⟩

/-- A miss in the per-date index means no leave of the list has that date. -/
theorem leavesByDate_eq_none_iff (L : List Leave) (d : DateStr) :
    leavesByDate L d = none ↔ ∀ l, l ∈ L → l.date ≠ d := by
  suffices haux : ∀ (M : List Leave) (acc : Option Leave),
      M.foldl (fun acc leave => if leave.date = d then some leave else acc) acc = none
      ↔ acc = none ∧ ∀ l, l ∈ M → l.date ≠ d by
    rw [leavesByDate, haux L none]
    simp
  intro M
  induction M with
  | nil => intro acc; simp
  | cons a M ih =>
    intro acc
    rw [List.foldl_cons, ih]
    by_cases hd : a.date = d
    · rw [if_pos hd]
      simp only [List.mem_cons]
      constructor
      · rintro ⟨hsome, _⟩
        exact absurd hsome (by simp)
      · rintro ⟨_, hall⟩
        exact absurd hd (hall a (Or.inl rfl))
    · rw [if_neg hd]
      simp only [List.mem_cons]
      constructor
      · rintro ⟨hacc, hall⟩
        exact ⟨hacc, fun l hl => hl.elim (fun he => he ▸ hd) (hall l)⟩
      · rintro ⟨hacc, hall⟩
        exact ⟨hacc, fun l hl => hall l (Or.inr hl)⟩

/-- If no later leave shares the date, the index keeps an earlier hit. -/
theorem leavesByDate_skip {d : DateStr} :
    ∀ (M : List Leave) (acc : Option Leave), (∀ x, x ∈ M → x.date ≠ d) →
    M.foldl (fun acc leave => if leave.date = d then some leave else acc) acc = acc := by
  intro M
  induction M with
  | nil => intro acc _; rfl
  | cons a M ih =>
    intro acc h
    rw [List.foldl_cons, if_neg (h a (List.mem_cons_self a M))]
    exact ih _ (fun x hx => h x (List.mem_cons_of_mem _ hx))

/-- With pairwise-distinct dates the per-date index finds exactly the
unique leave on the date, irrespective of list order. -/
theorem leavesByDate_eq_some_iff {L : List Leave} {d : DateStr} {l : Leave}
    (hnd : L.Pairwise (fun a b => a.date ≠ b.date)) :
    leavesByDate L d = some l ↔ l ∈ L ∧ l.date = d := by
  constructor
  · exact leavesByDate_eq_some
  · rintro ⟨hmem, hdate⟩
    induction L with
    | nil => exact absurd hmem (List.not_mem_nil l)
    | cons a M ih =>
      rw [List.pairwise_cons] at hnd
      rcases List.mem_cons.mp hmem with rfl | hmem'
      · rw [leavesByDate, List.foldl_cons, if_pos hdate]
        exact leavesByDate_skip M (some l)
          (fun x hx hxd => hnd.1 x hx (by rw [hdate, hxd]))
      · rw [leavesByDate, List.foldl_cons]
        by_cases hd : a.date = d
        · exact absurd (hd.trans hdate.symm) (hnd.1 l hmem')
        · rw [if_neg hd]
          exact ih hnd.2 hmem'

/-!
Window arithmetic: the `setUTCDate` computations of `resolveWindow`
expressed as day offsets from `today`.
-/

/-- The lower window bound is always `today + 4`. -/
theorem resolveWindow_fst (today : Int) (wr : WeekRange) :
    (resolveWindow today wr).1 = today + 4 := by
  cases wr <;> rfl

/-- For `1_WEEK` the upper bound is the Saturday of today's Sunday-start week. -/
theorem resolveWindow_snd_oneWeek (today : Int) :
    (resolveWindow today WeekRange.oneWeek).2 = today + (6 - getUTCDay today) := by
  show mkDateUTC (civilFromDays today).year (civilFromDays today).month
      (((civilFromDays today).day : Int) + (6 - getUTCDay today)) = today + (6 - getUTCDay today)
  exact mkDateUTC_self_add today _

/-- For `2_WEEKS` the upper bound is that Saturday plus seven days. -/
theorem resolveWindow_snd_twoWeeks (today : Int) :
    (resolveWindow today WeekRange.twoWeeks).2 = today + (6 - getUTCDay today) + 7 := by
  show mkDateUTC (civilFromDays today).year (civilFromDays today).month
      (((civilFromDays today).day : Int) + (6 - getUTCDay today) + 7)
      = today + (6 - getUTCDay today) + 7
  rw [show ((civilFromDays today).day : Int) + (6 - getUTCDay today) + 7
      = ((civilFromDays today).day : Int) + (6 - getUTCDay today + 7) from by ring]
  rw [mkDateUTC_self_add today (6 - getUTCDay today + 7)]
  ring

/-- For `1_MONTH` the upper bound is a fixed 30-day offset. -/
theorem resolveWindow_snd_oneMonth (today : Int) :
    (resolveWindow today WeekRange.oneMonth).2 = today + 30 := by
  show mkDateUTC (civilFromDays today).year (civilFromDays today).month
      (((civilFromDays today).day : Int) + 30) = today + 30
  exact mkDateUTC_self_add today 30

/-!
Claim theorems.
-/

/-- C1 (counterexample): for today = 2024-06-12 (a Wednesday, epoch day
19886) and weekRange 1_WEEK the resolved window has minDate 2024-06-16
but maxDate 2024-06-15, so `minDate <= maxDate` fails and the claim as
stated is false. -/
theorem C1_counterexample :
    ¬((resolveWindow (daysFromCivil ⟨2024, 6, 12⟩) WeekRange.oneWeek).1
      ≤ (resolveWindow (daysFromCivil ⟨2024, 6, 12⟩) WeekRange.oneWeek).2) := by decide

/-- C1 (amended): for every today and weekRange, minDate is exactly 4
days after today; `minDate <= maxDate` always holds for 2_WEEKS and
1_MONTH, but for 1_WEEK it holds exactly when today's UTC weekday
(Sunday = 0) is at most 2 (Tuesday), since maxDate is only the Saturday
of the current week. -/
theorem C1_amended_window (today : Int) (wr : WeekRange) :
    (resolveWindow today wr).1 = today + 4
    ∧ ((resolveWindow today wr).1 ≤ (resolveWindow today wr).2
        ↔ (wr = WeekRange.oneWeek → getUTCDay today ≤ 2)) := by
  refine ⟨resolveWindow_fst today wr, ?_⟩
  have hd : 0 ≤ getUTCDay today ∧ getUTCDay today < 7 := by
    unfold getUTCDay
    omega
  cases wr
  · rw [resolveWindow_fst, resolveWindow_snd_oneWeek]
    constructor
    · intro h _
      omega
    · intro h
      have := h rfl
      omega
  · rw [resolveWindow_fst, resolveWindow_snd_twoWeeks]
    constructor
    · intro _ he
      exact absurd he (by decide)
    · intro _
      omega
  · rw [resolveWindow_fst, resolveWindow_snd_oneMonth]
    constructor
    · intro _ he
      exact absurd he (by decide)
    · intro _
      omega

/-- C1 (witness): the amended statement instantiated at today =
2024-06-10 with weekRange 1_WEEK. -/
theorem C1_witness :
    (resolveWindow 19884 WeekRange.oneWeek).1 = 19884 + 4
    ∧ ((resolveWindow 19884 WeekRange.oneWeek).1 ≤ (resolveWindow 19884 WeekRange.oneWeek).2
        ↔ (WeekRange.oneWeek = WeekRange.oneWeek → getUTCDay 19884 ≤ 2)) :=
  C1_amended_window 19884 WeekRange.oneWeek

/-- C4 (counterexample): for today = 2024-06-10 (epoch day 19884) and
1_WEEK the window is not (2024-06-14, 2024-06-16): the code's maxDate is
`today + (6 - dow)` = 2024-06-15, the Saturday, not the Sunday. -/
theorem C4_counterexample :
    ¬((resolveWindow (daysFromCivil ⟨2024, 6, 10⟩) WeekRange.oneWeek).1
        = daysFromCivil ⟨2024, 6, 14⟩
      ∧ (resolveWindow (daysFromCivil ⟨2024, 6, 10⟩) WeekRange.oneWeek).2
        = daysFromCivil ⟨2024, 6, 16⟩) := by decide

/-- C4 (amended): 2024-06-10 is a Monday, and with weekRange 1_WEEK the
resolved window is minDate = 2024-06-14 and maxDate = 2024-06-15 (the
Saturday of that week). -/
theorem C4_amended_scenario :
    getUTCDay (daysFromCivil ⟨2024, 6, 10⟩) = 1
    ∧ (resolveWindow (daysFromCivil ⟨2024, 6, 10⟩) WeekRange.oneWeek).1
        = daysFromCivil ⟨2024, 6, 14⟩
    ∧ (resolveWindow (daysFromCivil ⟨2024, 6, 10⟩) WeekRange.oneWeek).2
        = daysFromCivil ⟨2024, 6, 15⟩ := by decide

/-- C5: for every today, with 2_WEEKS the maxDate is
`today + (6 - dow) + 7` where `dow` is today's UTC weekday (Sunday = 0) —
equivalently the Saturday ending the current week plus 7 days — and with
1_MONTH it is the fixed offset `today + 30`, not a calendar month end. -/
theorem C5_maxDate (today : Int) :
    (resolveWindow today WeekRange.twoWeeks).2 = today + (6 - getUTCDay today) + 7
    ∧ (resolveWindow today WeekRange.oneMonth).2 = today + 30
    ∧ getUTCDay (today + (6 - getUTCDay today)) = 6
    ∧ today ≤ today + (6 - getUTCDay today)
    ∧ today + (6 - getUTCDay today) < today + 7 := by
  refine ⟨resolveWindow_snd_twoWeeks today, resolveWindow_snd_oneMonth today, ?_, ?_, ?_⟩
  all_goals unfold getUTCDay
  all_goals omega

/-- C8 (counterexample): the nonempty string `"2024/06/10"` fails the
strict `YYYY-MM-DD` test, yet `formatDate` hands it to the implicit
`new Date(...)` parse instead of treating it as invalid input, so the
claim as stated is false. -/
theorem C8_counterexample :
    matchesISOFormat "2024/06/10" = false
    ∧ formatDateBranch "2024/06/10" = DateParseBranch.implicitParse := by decide

/-- C8 (amended): every nonempty date string failing the strict
`YYYY-MM-DD` validation is passed to the implicit `new Date(dateString)`
parse (the fallback branch); only when that parse also yields an invalid
date is the input returned unchanged. -/
theorem C8_amended_fallback (s : String) (hne : s ≠ "")
    (hm : matchesISOFormat s = false) :
    formatDateBranch s = DateParseBranch.implicitParse := by
  unfold formatDateBranch
  rw [if_neg hne, hm]
  simp

/-- C8 (witness): the amended statement instantiated at `"2024/06/10"`. -/
theorem C8_witness :
    formatDateBranch "2024/06/10" = DateParseBranch.implicitParse :=
  C8_amended_fallback "2024/06/10" (by decide) (by decide)

/-- C3: a Monday-start week key is in `bookedWeeks` iff some leave with
status PENDING or APPROVED falls in that Monday-start week; in particular
two active leaves in the same week produce exactly the one shared key,
and a week holding only a REJECTED leave is absent. -/
theorem C3_bookedWeeks :
    (∀ (myLeaves : List Leave) (w : DateStr),
      w ∈ bookedWeeks myLeaves
      ↔ ∃ l, l ∈ myLeaves
          ∧ (l.status = LeaveStatus.PENDING ∨ l.status = LeaveStatus.APPROVED)
          ∧ ∃ wd : Int, w = civilFromDays wd ∧ inMondayWeek wd (parseISODate l.date))
    ∧ bookedWeeks [mkLeave "l1" ⟨2024, 6, 11⟩ LeaveStatus.PENDING,
        mkLeave "l2" ⟨2024, 6, 14⟩ LeaveStatus.APPROVED] = [⟨2024, 6, 10⟩]
    ∧ bookedWeeks [mkLeave "l3" ⟨2024, 6, 20⟩ LeaveStatus.REJECTED] = [] := by
  refine ⟨?_, by decide, by decide⟩
  intro myLeaves w
  rw [mem_bookedWeeks_iff]
  constructor
  · rintro ⟨l, hl, hact, hkey⟩
    refine ⟨l, hl, hact, weekStart (parseISODate l.date), ?_, inMondayWeek_weekStart _⟩
    rw [← hkey, getStartOfWeekUTC_eq]
  · rintro ⟨l, hl, hact, wd, hwd, hin⟩
    refine ⟨l, hl, hact, ?_⟩
    rw [getStartOfWeekUTC_eq, hwd, inMondayWeek_unique hin]

/-- C3 (witness): the membership criterion instantiated on a singleton
pending leave dated 2024-06-11, whose Monday is 2024-06-10. -/
theorem C3_witness :
    (⟨2024, 6, 10⟩ : DateStr)
      ∈ bookedWeeks [mkLeave "l1" ⟨2024, 6, 11⟩ LeaveStatus.PENDING] :=
  (C3_bookedWeeks.1 _ _).mpr
    ⟨mkLeave "l1" ⟨2024, 6, 11⟩ LeaveStatus.PENDING,
      List.mem_cons_self _ _, Or.inl rfl, 19884, by decide, by decide⟩

/-- C9: `getStartOfWeekUTC` renders the Monday of the Monday-start week
containing the date — `weekStart z` is that Monday and the result is its
`YYYY-MM-DD` string, across month and year boundaries — and two dates get
the same key iff they lie in one common Monday-start week. -/
theorem C9_week_key (z : Int) :
    getStartOfWeekUTC z = civilFromDays (weekStart z)
    ∧ inMondayWeek (weekStart z) z
    ∧ (∀ z' : Int, getStartOfWeekUTC z = getStartOfWeekUTC z'
        ↔ ∃ w : Int, inMondayWeek w z ∧ inMondayWeek w z') := by
  refine ⟨getStartOfWeekUTC_eq z, inMondayWeek_weekStart z, ?_⟩
  intro z'
  rw [getStartOfWeekUTC_eq_iff]
  constructor
  · intro h
    refine ⟨weekStart z, inMondayWeek_weekStart z, ?_⟩
    rw [h]
    exact inMondayWeek_weekStart z'
  · rintro ⟨w, h1, h2⟩
    rw [← inMondayWeek_unique h1, ← inMondayWeek_unique h2]

/-- C9 (witness): 2024-06-12 and 2024-06-10 share the week key because
both lie in the Monday-start week beginning 2024-06-10. -/
theorem C9_witness :
    getStartOfWeekUTC 19886 = getStartOfWeekUTC 19884 :=
  ((C9_week_key 19886).2.2 19884).mpr ⟨19884, by decide, by decide⟩

/-- C6: if the per-date index holds the user's leave on a date, a
REJECTED status does not raise the active-leave flag (re-application is
allowed), while a PENDING or APPROVED status disables the date. -/
theorem C6_active_leave_rule (config : Config) (today : Int) (myLeaves : List Leave)
    (slotInfo : DateStr → Option SlotCell) (z : Int) (l : Leave)
    (h : leavesByDate myLeaves (civilFromDays z) = some l) :
    (l.status = LeaveStatus.REJECTED
      → (classify config today myLeaves slotInfo z).hasActiveLeave = false)
    ∧ ((l.status = LeaveStatus.PENDING ∨ l.status = LeaveStatus.APPROVED)
      → (classify config today myLeaves slotInfo z).isDisabled = true) := by
  constructor
  · intro hst
    simp only [classify]
    rw [h]
    simp [hst]
  · intro hst
    simp only [classify]
    rw [h]
    rcases hst with hst | hst <;> simp [hst]

/-- C6 (witness): a REJECTED leave on 2024-06-20 leaves the flag off; a
PENDING leave on the same date disables the date. -/
theorem C6_witness :
    (classify ⟨[], WeekRange.oneMonth, []⟩ 19884
        [mkLeave "r" ⟨2024, 6, 20⟩ LeaveStatus.REJECTED]
        (fun _ => none) (daysFromCivil ⟨2024, 6, 20⟩)).hasActiveLeave = false
    ∧ (classify ⟨[], WeekRange.oneMonth, []⟩ 19884
        [mkLeave "p" ⟨2024, 6, 20⟩ LeaveStatus.PENDING]
        (fun _ => none) (daysFromCivil ⟨2024, 6, 20⟩)).isDisabled = true :=
  ⟨(C6_active_leave_rule ⟨[], WeekRange.oneMonth, []⟩ 19884
      [mkLeave "r" ⟨2024, 6, 20⟩ LeaveStatus.REJECTED] (fun _ => none)
      (daysFromCivil ⟨2024, 6, 20⟩) (mkLeave "r" ⟨2024, 6, 20⟩ LeaveStatus.REJECTED)
      (by decide)).1 rfl,
   (C6_active_leave_rule ⟨[], WeekRange.oneMonth, []⟩ 19884
      [mkLeave "p" ⟨2024, 6, 20⟩ LeaveStatus.PENDING] (fun _ => none)
      (daysFromCivil ⟨2024, 6, 20⟩) (mkLeave "p" ⟨2024, 6, 20⟩ LeaveStatus.PENDING)
      (by decide)).2 (Or.inl rfl)⟩

/-- C7: the submission guard issues the create-leave request exactly when
a date and a shift are chosen and the chosen shift's date-specific
available slots (0 when its entry is absent) are positive; otherwise it
rejects. -/
theorem C7_submission_guard (selectedDate selectedShift : String)
    (slotInfoForDate : Option (List LeaveSlotInfo)) :
    handleApplyLeave selectedDate selectedShift slotInfoForDate = SubmitResult.submitted
    ↔ ¬(selectedDate = "" ∨ selectedShift = ""
        ∨ chosenShiftAvailableSlots selectedShift slotInfoForDate ≤ 0) := by
  unfold handleApplyLeave chosenShiftAvailableSlots
  by_cases h1 : selectedDate = "" ∨ selectedShift = ""
  · rw [if_pos h1]
    constructor
    · intro h
      exact absurd h (by decide)
    · intro hn
      exact absurd (h1.elim Or.inl (fun hb => Or.inr (Or.inl hb))) hn
  · rw [if_neg h1]
    cases hfind : slotInfoForDate.bind
        (fun infos => infos.find? (fun s => decide (s.shiftId = selectedShift))) with
    | none =>
      dsimp only
      constructor
      · intro h
        exact absurd h (by decide)
      · intro hn
        exact absurd (Or.inr (Or.inr (le_refl 0))) hn
    | some s =>
      dsimp only
      by_cases hs : s.availableSlots ≤ 0
      · rw [if_pos hs]
        constructor
        · intro h
          exact absurd h (by decide)
        · intro hn
          exact absurd (Or.inr (Or.inr hs)) hn
      · rw [if_neg hs]
        constructor
        · intro _
          rintro (hd | hsh | hle)
          · exact h1 (Or.inl hd)
          · exact h1 (Or.inr hsh)
          · exact hs hle
        · intro _
          rfl

/-- C7 (witness): with a chosen date and shift and 3 available slots the
request is issued. -/
theorem C7_witness :
    handleApplyLeave "2024-06-14" "s1"
      (some [{ date := ⟨2024, 6, 14⟩, shiftId := "s1", totalSlots := 5,
               filledSlots := 2, availableSlots := 3 }])
      = SubmitResult.submitted :=
  (C7_submission_guard _ _ _).mpr (by decide)

/-- C2 (counterexample): all premises of the claim hold — date
2024-06-12 (epoch day 19886) holds the user's only PENDING/APPROVED
leave of its week — yet classifying it still raises the
WEEK_ALREADY_BOOKED flag, because a later REJECTED leave on the same
date overwrites the per-date index entry. -/
theorem C2_counterexample :
    mkLeave "a" ⟨2024, 6, 12⟩ LeaveStatus.APPROVED
      ∈ [mkLeave "a" ⟨2024, 6, 12⟩ LeaveStatus.APPROVED,
         mkLeave "r" ⟨2024, 6, 12⟩ LeaveStatus.REJECTED]
    ∧ isActive (mkLeave "a" ⟨2024, 6, 12⟩ LeaveStatus.APPROVED)
    ∧ (mkLeave "a" ⟨2024, 6, 12⟩ LeaveStatus.APPROVED).date = civilFromDays 19886
    ∧ (∀ l', l' ∈ [mkLeave "a" ⟨2024, 6, 12⟩ LeaveStatus.APPROVED,
         mkLeave "r" ⟨2024, 6, 12⟩ LeaveStatus.REJECTED]
        → isActive l' → weekStart (parseISODate l'.date) = weekStart 19886
        → l'.date = civilFromDays 19886)
    ∧ (classify ⟨[], WeekRange.oneMonth, []⟩ 19884
        [mkLeave "a" ⟨2024, 6, 12⟩ LeaveStatus.APPROVED,
         mkLeave "r" ⟨2024, 6, 12⟩ LeaveStatus.REJECTED]
        (fun _ => none) 19886).isWeekBooked = true := by decide

/-- C2 (amended): if date D holds the user's only PENDING/APPROVED leave
of its Monday-start week and the per-date index entry for D is that
active leave (as is the case whenever no other leave record shares date
D), then classifying D does not raise WEEK_ALREADY_BOOKED, while
classifying any other date of the same Monday-start week does raise it. -/
theorem C2_self_visit (config : Config) (today : Int)
    (slotInfo : DateStr → Option SlotCell) (myLeaves : List Leave) (zD : Int)
    (l : Leave) (hmem : l ∈ myLeaves) (hact : isActive l)
    (hdate : l.date = civilFromDays zD)
    (honly : ∀ l', l' ∈ myLeaves → isActive l'
      → weekStart (parseISODate l'.date) = weekStart zD → l'.date = civilFromDays zD)
    (hidx : leavesByDate myLeaves (civilFromDays zD) = some l) :
    (classify config today myLeaves slotInfo zD).isWeekBooked = false
    ∧ ∀ z2 : Int, weekStart z2 = weekStart zD → z2 ≠ zD →
        (classify config today myLeaves slotInfo z2).isWeekBooked = true := by
  constructor
  · simp only [classify]
    rw [hidx]
    rcases hact with h | h <;> simp [h]
  · intro z2 hweek hne
    simp only [classify]
    have hmemw : getStartOfWeekUTC z2 ∈ bookedWeeks myLeaves := by
      rw [mem_bookedWeeks_iff]
      refine ⟨l, hmem, hact, ?_⟩
      rw [hdate, show parseISODate (civilFromDays zD) = zD from daysFromCivil_civilFromDays zD]
      rw [getStartOfWeekUTC_eq_iff]
      exact hweek.symm
    cases hidx2 : leavesByDate myLeaves (civilFromDays z2) with
    | none =>
      simp [hmemw]
    | some l2 =>
      obtain ⟨hl2mem, hl2date⟩ := leavesByDate_eq_some hidx2
      have hl2inactive : ¬ isActive l2 := by
        intro hact2
        have hweek2 : weekStart (parseISODate l2.date) = weekStart zD := by
          rw [hl2date,
            show parseISODate (civilFromDays z2) = z2 from daysFromCivil_civilFromDays z2]
          exact hweek
        have hd2 := honly l2 hl2mem hact2 hweek2
        rw [hl2date] at hd2
        exact hne (civilFromDays_injective hd2)
      have hs : l2.status ≠ LeaveStatus.APPROVED ∧ l2.status ≠ LeaveStatus.PENDING :=
        ⟨fun hA => hl2inactive (Or.inr hA), fun hP => hl2inactive (Or.inl hP)⟩
      simp [hmemw, hs.1, hs.2]

/-- C2 (witness): the amended statement applied to a single APPROVED
leave on 2024-06-12: that date's flag is off, while 2024-06-11 in the
same week is flagged. -/
theorem C2_witness :
    (classify ⟨[], WeekRange.oneMonth, []⟩ 19884
        [mkLeave "a" ⟨2024, 6, 12⟩ LeaveStatus.APPROVED]
        (fun _ => none) 19886).isWeekBooked = false
    ∧ (classify ⟨[], WeekRange.oneMonth, []⟩ 19884
        [mkLeave "a" ⟨2024, 6, 12⟩ LeaveStatus.APPROVED]
        (fun _ => none) 19885).isWeekBooked = true := by
  have h := C2_self_visit ⟨[], WeekRange.oneMonth, []⟩ 19884 (fun _ => none)
    [mkLeave "a" ⟨2024, 6, 12⟩ LeaveStatus.APPROVED] 19886
    (mkLeave "a" ⟨2024, 6, 12⟩ LeaveStatus.APPROVED)
    (by decide) (by decide) (by decide) (by decide) (by decide)
  exact ⟨h.1, h.2 19885 (by decide) (by decide)⟩

/-- C10: with pairwise-distinct leave dates, the calendar's per-day
disabling decision is invariant under permutation of the leave list; the
distinct-dates precondition is what neutralises the last-write-wins
construction of the per-date index. -/
theorem C10_perm_invariant (config : Config) (today : Int)
    (slotInfo : DateStr → Option SlotCell) (L L' : List Leave) (z : Int)
    (hnd : L.Pairwise (fun a b => a.date ≠ b.date)) (hperm : L.Perm L') :
    (classify config today L' slotInfo z).isDisabled
      = (classify config today L slotInfo z).isDisabled := by
  have hnd' : L'.Pairwise (fun a b => a.date ≠ b.date) :=
    (hperm.pairwise_iff (fun h => Ne.symm h)).mp hnd
  have hlook : ∀ d, leavesByDate L' d = leavesByDate L d := by
    intro d
    cases hL : leavesByDate L d with
    | some l =>
      obtain ⟨hm, hd⟩ := leavesByDate_eq_some hL
      exact (leavesByDate_eq_some_iff hnd').mpr ⟨hperm.subset hm, hd⟩
    | none =>
      rw [leavesByDate_eq_none_iff] at hL ⊢
      intro l hl
      exact hL l (hperm.symm.subset hl)
  have hbw : (getStartOfWeekUTC z ∈ bookedWeeks L') ↔ (getStartOfWeekUTC z ∈ bookedWeeks L) := by
    rw [mem_bookedWeeks_iff, mem_bookedWeeks_iff]
    constructor
    · rintro ⟨l, hl, h1, h2⟩
      exact ⟨l, hperm.symm.subset hl, h1, h2⟩
    · rintro ⟨l, hl, h1, h2⟩
      exact ⟨l, hperm.subset hl, h1, h2⟩
  simp only [classify]
  rw [hlook, decide_eq_decide.mpr hbw]

/-- C10 (witness): swapping two distinct-date leaves leaves the
disabling decision for 2024-06-12 unchanged. -/
theorem C10_witness :
    (classify ⟨[], WeekRange.oneMonth, []⟩ 19884
        [mkLeave "b" ⟨2024, 6, 20⟩ LeaveStatus.PENDING,
         mkLeave "a" ⟨2024, 6, 12⟩ LeaveStatus.APPROVED]
        (fun _ => none) 19886).isDisabled
      = (classify ⟨[], WeekRange.oneMonth, []⟩ 19884
        [mkLeave "a" ⟨2024, 6, 12⟩ LeaveStatus.APPROVED,
         mkLeave "b" ⟨2024, 6, 20⟩ LeaveStatus.PENDING]
        (fun _ => none) 19886).isDisabled :=
  C10_perm_invariant ⟨[], WeekRange.oneMonth, []⟩ 19884 (fun _ => none)
    [mkLeave "a" ⟨2024, 6, 12⟩ LeaveStatus.APPROVED,
     mkLeave "b" ⟨2024, 6, 20⟩ LeaveStatus.PENDING]
    [mkLeave "b" ⟨2024, 6, 20⟩ LeaveStatus.PENDING,
     mkLeave "a" ⟨2024, 6, 12⟩ LeaveStatus.APPROVED]
    19886 (by decide)
    (List.Perm.swap (mkLeave "b" ⟨2024, 6, 20⟩ LeaveStatus.PENDING)
      (mkLeave "a" ⟨2024, 6, 12⟩ LeaveStatus.APPROVED) [])

/-- C5 (witness): the 1_MONTH bound instantiated at today = 2024-06-10. -/
theorem C5_witness : (resolveWindow 19884 WeekRange.oneMonth).2 = 19884 + 30 :=
  (C5_maxDate 19884).2.1
